import Mathlib

/-
  Verification of the regret-curve program in
  src/proof_for_dpo_to_kpi_privacy.py.

  The program sweeps a list of privacy budgets ε, computing for each
      b = δ / ε
      prob = exp (-δ / (2 * b))
  and returns `(epsilons, regret)`; the script then draws a labelled line
  chart of regret against ε.  Division by zero is an uncaught numeric
  fault that aborts the computation; we embed it as `Option`, `none`
  meaning the fault.
-/

namespace GPref

noncomputable section

open Real

/-- Division as in the source: dividing by zero raises an uncaught
numeric fault, embedded as `none`. -/
def div? (x y : ℝ) : Option ℝ :=
  if y = 0 then none else some (x / y)

/-- One iteration of the loop body of `simulate_preference_regret`
(lines 7-8 of the source): `b = delta / eps` followed by
`prob = exp (-delta / (2 * b))`.  Either division may fault. -/
def regretStep (delta eps : ℝ) : Option ℝ :=
  (div? delta eps).bind fun b => (div? (-delta) (2 * b)).map fun q => Real.exp q

/-- The `for eps in epsilons` loop (lines 6-9): the regret values are
accumulated in input order, and a fault at any element aborts the whole
computation. -/
def regretLoop (delta : ℝ) : List ℝ → Option (List ℝ)
  | [] => some []
  | e :: es =>
    (regretStep delta e).bind fun p => (regretLoop delta es).map fun ps => p :: ps

/-- `simulate_preference_regret` (lines 4-10): runs the sweep and returns
the pair `(epsilons, regret)`, or faults. -/
def simulate_preference_regret (delta : ℝ) (epsilons : List ℝ) :
    Option (List ℝ × List ℝ) :=
  (regretLoop delta epsilons).map fun regret => (epsilons, regret)

/-- `np.linspace start stop num`: `num` evenly spaced samples from `start`
to `stop` inclusive. -/
def linspace (start stop : ℝ) (num : ℕ) : List ℝ :=
  (List.range num).map fun i : ℕ => start + (stop - start) * (i : ℝ) / ((num : ℝ) - 1)

/-- The default ε sweep of the source, `np.linspace(0.1, 3, 20)`. -/
def defaultEpsilons : List ℝ := linspace 0.1 3 20

/-- The state handed to the plotting backend by lines 13-17 of the
script: the plotted curve, the axis labels, the title and the grid flag. -/
structure PlotCall where
  xdata : List ℝ
  ydata : List ℝ
  xlabel : String
  ylabel : String
  title : String
  grid : Bool

/-- The script's single render (lines 12-17): the default computation
followed by `plt.plot`, the two axis labels, the title and `plt.grid(True)`.
The x-label string is byte-for-byte the one in the source file, whose
ε was mangled by a text-encoding slip into the two characters `Îµ`. -/
def scriptPlot : Option PlotCall :=
  (simulate_preference_regret 1.0 defaultEpsilons).map fun p =>
    { xdata := p.1
      ydata := p.2
      xlabel := "Privacy budget (Îµ)"
      ylabel := "Preference Regret"
      title := "Tradeoff: Privacy vs Preference Accuracy"
      grid := true }

/-! ### Basic facts about the embedded operations -/

lemma div?_eq_some {x y : ℝ} (h : y ≠ 0) : div? x y = some (x / y) :=
  if_neg h

lemma div?_zero (x : ℝ) : div? x 0 = none :=
  if_pos rfl

lemma regretStep_eq {delta e : ℝ} (hd : delta ≠ 0) (he : e ≠ 0) :
    regretStep delta e = some (Real.exp (-(e / 2))) := by
  have hb : delta / e ≠ 0 := div_ne_zero hd he
  have h2 : (2 : ℝ) * (delta / e) ≠ 0 := mul_ne_zero two_ne_zero hb
  have harg : -delta / (2 * (delta / e)) = -(e / 2) := by
    field_simp
    ring
  rw [regretStep, div?_eq_some he, Option.some_bind, div?_eq_some h2, harg,
    Option.map_some']

lemma regretStep_eps_zero (delta : ℝ) : regretStep delta 0 = none := by
  simp [regretStep, div?]

lemma regretStep_delta_zero (e : ℝ) : regretStep 0 e = none := by
  rcases eq_or_ne e 0 with rfl | he
  · simp [regretStep, div?]
  · simp [regretStep, div?, he, zero_div]

lemma regretLoop_map (delta : ℝ) (hd : delta ≠ 0) (eps : List ℝ)
    (hne : ∀ e ∈ eps, e ≠ 0) :
    regretLoop delta eps = some (eps.map fun e => Real.exp (-(e / 2))) := by
  induction eps with
  | nil => rfl
  | cons e es ih =>
    have he := hne e (List.mem_cons_self e es)
    have ih' := ih fun x hx => hne x (List.mem_cons_of_mem _ hx)
    simp [regretLoop, regretStep_eq hd he, ih']

lemma regretLoop_none_of_mem_zero (delta : ℝ) (eps : List ℝ)
    (h : (0 : ℝ) ∈ eps) : regretLoop delta eps = none := by
  induction eps with
  | nil => simp at h
  | cons e es ih =>
    rcases List.mem_cons.mp h with heq | h'
    · simp [regretLoop, ← heq, regretStep_eps_zero]
    · rcases hstep : regretStep delta e with _ | p <;>
        simp [regretLoop, hstep, ih h']

lemma regretLoop_delta_zero (eps : List ℝ) (h : eps ≠ []) :
    regretLoop 0 eps = none := by
  cases eps with
  | nil => exact absurd rfl h
  | cons e es => simp [regretLoop, regretStep_delta_zero]

lemma regretLoop_length (delta : ℝ) (eps rs : List ℝ)
    (h : regretLoop delta eps = some rs) : rs.length = eps.length := by
  induction eps generalizing rs with
  | nil =>
    simp [regretLoop] at h
    simp [← h]
  | cons e es ih =>
    rcases hstep : regretStep delta e with _ | p
    · simp [regretLoop, hstep] at h
    · rcases hrest : regretLoop delta es with _ | ps
      · simp [regretLoop, hstep, hrest] at h
      · simp [regretLoop, hstep, hrest] at h
        rw [← h]
        simp [ih ps hrest]

lemma regretLoop_get (delta : ℝ) (eps rs : List ℝ)
    (h : regretLoop delta eps = some rs) (i : ℕ) (hi : i < eps.length)
    (hi' : i < rs.length) :
    regretStep delta (eps.get ⟨i, hi⟩) = some (rs.get ⟨i, hi'⟩) := by
  induction eps generalizing rs i with
  | nil => exact absurd hi (by simp)
  | cons e es ih =>
    rcases hstep : regretStep delta e with _ | p
    · simp [regretLoop, hstep] at h
    · rcases hrest : regretLoop delta es with _ | ps
      · simp [regretLoop, hstep, hrest] at h
      · simp [regretLoop, hstep, hrest] at h
        subst h
        cases i with
        | zero => exact hstep
        | succ n =>
          exact ih ps hrest n (Nat.lt_of_succ_lt_succ hi)
            (Nat.lt_of_succ_lt_succ hi')

lemma regretStep_some_val {delta e p : ℝ} (he : e ≠ 0)
    (h : regretStep delta e = some p) : p = Real.exp (-(e / 2)) := by
  rcases eq_or_ne delta 0 with rfl | hd
  · rw [regretStep_delta_zero] at h
    exact absurd h (by simp)
  · rw [regretStep_eq hd he] at h
    exact (Option.some_inj.mp h).symm

lemma simulate_eq_some {delta : ℝ} {eps es rs : List ℝ}
    (h : simulate_preference_regret delta eps = some (es, rs)) :
    es = eps ∧ regretLoop delta eps = some rs := by
  rcases hl : regretLoop delta eps with _ | rs'
  · rw [simulate_preference_regret, hl] at h
    exact absurd h (by simp)
  · rw [simulate_preference_regret, hl] at h
    simp at h
    obtain ⟨h1, h2⟩ := h
    subst h2
    exact ⟨h1.symm, rfl⟩

lemma simulate_of_loop {delta : ℝ} {eps rs : List ℝ}
    (h : regretLoop delta eps = some rs) :
    simulate_preference_regret delta eps = some (eps, rs) := by
  rw [simulate_preference_regret, h, Option.map_some']

lemma defaultEpsilons_pos : ∀ e ∈ defaultEpsilons, 0 < e := by
  intro e he
  rw [defaultEpsilons, linspace] at he
  obtain ⟨i, _, rfl⟩ := List.mem_map.mp he
  have h19 : ((20 : ℕ) : ℝ) - 1 = 19 := by norm_num
  have h29 : ((3 : ℝ) - 0.1) = 2.9 := by norm_num
  rw [h19, h29]
  positivity

/-! ### Numeric bounds on the two boundary regret values -/

lemma exp_neg_inv20_bounds :
    0.9502 < Real.exp (-(1 / 20)) ∧ Real.exp (-(1 / 20)) < 0.9522 := by
  have h20 : Real.exp (1 / 20) ^ (20 : ℕ) = Real.exp 1 := by
    rw [← Real.exp_nat_mul]
    norm_num
  have hgt : (1.0502 : ℝ) < Real.exp (1 / 20) := by
    refine lt_of_pow_lt_pow_left₀ 20 (Real.exp_pos _).le ?_
    rw [h20]
    calc (1.0502 : ℝ) ^ 20 < 2.7182818283 := by norm_num
      _ < Real.exp 1 := Real.exp_one_gt_d9
  have hlt : Real.exp (1 / 20) < 1.0524 := by
    refine lt_of_pow_lt_pow_left₀ 20 (by norm_num) ?_
    rw [h20]
    calc Real.exp 1 < 2.7182818286 := Real.exp_one_lt_d9
      _ < (1.0524 : ℝ) ^ 20 := by norm_num
  have hy : 0 < Real.exp (-(1 / 20)) := Real.exp_pos _
  have hmul : Real.exp (-(1 / 20)) * Real.exp (1 / 20) = 1 := by
    rw [← Real.exp_add]
    norm_num
  constructor
  · nlinarith [hmul, hlt, hy]
  · nlinarith [hmul, hgt, hy]

lemma exp_neg_threehalf_bounds :
    0.2221 < Real.exp (-(3 / 2)) ∧ Real.exp (-(3 / 2)) < 0.2241 := by
  have hsq : Real.exp (3 / 2) ^ (2 : ℕ) = Real.exp 1 ^ (3 : ℕ) := by
    rw [← Real.exp_nat_mul, ← Real.exp_nat_mul]
    norm_num
  have hgt : (4.47 : ℝ) < Real.exp (3 / 2) := by
    refine lt_of_pow_lt_pow_left₀ 2 (Real.exp_pos _).le ?_
    rw [hsq]
    calc (4.47 : ℝ) ^ 2 < 2.7182818283 ^ 3 := by norm_num
      _ < Real.exp 1 ^ 3 :=
        pow_lt_pow_left₀ Real.exp_one_gt_d9 (by norm_num) (by norm_num)
  have hlt : Real.exp (3 / 2) < 4.5 := by
    refine lt_of_pow_lt_pow_left₀ 2 (by norm_num) ?_
    rw [hsq]
    calc Real.exp 1 ^ 3 < 2.7182818286 ^ 3 :=
        pow_lt_pow_left₀ Real.exp_one_lt_d9 (Real.exp_pos _).le (by norm_num)
      _ < (4.5 : ℝ) ^ 2 := by norm_num
  have hy : 0 < Real.exp (-(3 / 2)) := Real.exp_pos _
  have hmul : Real.exp (-(3 / 2)) * Real.exp (3 / 2) = 1 := by
    rw [← Real.exp_add]
    norm_num
  constructor
  · nlinarith [hmul, hlt, hy]
  · nlinarith [hmul, hgt, hy]

/-! ### The claims -/

/-- C1, counterexample: the claim quantifies over any δ, but at δ = 0 the
loop body computes b = 0 and then divides by zero, so on the all-positive
sweep [1] no regret sequence is returned at all. -/
theorem c1_counterexample_delta_zero :
    (0 : ℝ) < 1 ∧ simulate_preference_regret 0 [1] = none := by
  refine ⟨by norm_num, ?_⟩
  rw [simulate_preference_regret, regretLoop_delta_zero [1] (by simp)]
  rfl

/-- C1 (amended to δ ≠ 0): for every strictly positive ε-sequence and any
nonzero δ, the two-step computation b = δ/ε, exp (-δ/(2·b)) returns the
regret sequence whose i-th element is exp (-ε[i]/2), independent of δ. -/
theorem c1_regret_formula (delta : ℝ) (eps : List ℝ) (hd : delta ≠ 0)
    (hpos : ∀ e ∈ eps, 0 < e) :
    simulate_preference_regret delta eps =
      some (eps, eps.map fun e => Real.exp (-(e / 2))) :=
  simulate_of_loop (regretLoop_map delta hd eps fun e he => (hpos e he).ne')

/-- C1, witness: the amended theorem evaluated at δ = 1, ε-sweep [2]. -/
theorem c1_regret_formula_witness :
    (1 : ℝ) ≠ 0 ∧ (∀ e ∈ [(2 : ℝ)], 0 < e) ∧
      simulate_preference_regret 1 [2] = some ([2], [Real.exp (-(2 / 2))]) := by
  have hpos : ∀ e ∈ [(2 : ℝ)], 0 < e := by
    intro x hx
    rw [List.mem_singleton] at hx
    subst hx
    norm_num
  refine ⟨one_ne_zero, hpos, ?_⟩
  have h := c1_regret_formula 1 [2] one_ne_zero hpos
  simpa using h

/-- C2: if the ε-sequence contains 0, `simulate_preference_regret` hits the
divide-by-zero fault and returns no value at all, for every δ. -/
theorem c2_zero_eps_faults (delta : ℝ) (eps : List ℝ) (h : (0 : ℝ) ∈ eps) :
    simulate_preference_regret delta eps = none := by
  rw [simulate_preference_regret, regretLoop_none_of_mem_zero delta eps h]
  rfl

/-- C2, witness: the theorem evaluated at δ = 1, ε-sweep [0]. -/
theorem c2_zero_eps_faults_witness :
    (0 : ℝ) ∈ [(0 : ℝ)] ∧ simulate_preference_regret 1 [0] = none :=
  ⟨List.mem_singleton.mpr rfl,
    c2_zero_eps_faults 1 [0] (List.mem_singleton.mpr rfl)⟩

/-- C3: on an all-positive sweep, whenever a regret sequence is returned it
is strictly decreasing wherever ε increases: ε[i] < ε[j] implies
regret[j] < regret[i]. -/
theorem c3_strictly_decreasing (delta : ℝ) (eps es rs : List ℝ)
    (hret : simulate_preference_regret delta eps = some (es, rs))
    (hpos : ∀ e ∈ eps, 0 < e) (i j : ℕ) (hi : i < eps.length)
    (hj : j < eps.length) (hi' : i < rs.length) (hj' : j < rs.length)
    (hij : eps.get ⟨i, hi⟩ < eps.get ⟨j, hj⟩) :
    rs.get ⟨j, hj'⟩ < rs.get ⟨i, hi'⟩ := by
  obtain ⟨-, hloop⟩ := simulate_eq_some hret
  have hgi := regretLoop_get delta eps rs hloop i hi hi'
  have hgj := regretLoop_get delta eps rs hloop j hj hj'
  have hvi := regretStep_some_val (hpos _ (eps.get_mem i hi)).ne' hgi
  have hvj := regretStep_some_val (hpos _ (eps.get_mem j hj)).ne' hgj
  rw [hvi, hvj]
  exact Real.exp_lt_exp.mpr (by linarith)

/-- C3, witness: the theorem evaluated at δ = 1, sweep [1, 2], i = 0, j = 1. -/
theorem c3_strictly_decreasing_witness :
    ([(1 : ℝ), 2].get ⟨0, by simp⟩ < [(1 : ℝ), 2].get ⟨1, by simp⟩) ∧
      ([Real.exp (-(1 / 2)), Real.exp (-(2 / 2))].get ⟨1, by simp⟩ <
        [Real.exp (-(1 / 2)), Real.exp (-(2 / 2))].get ⟨0, by simp⟩) := by
  have hpos : ∀ e ∈ [(1 : ℝ), 2], 0 < e := by
    intro x hx
    rcases List.mem_cons.mp hx with rfl | hx'
    · norm_num
    · rw [List.mem_singleton] at hx'
      subst hx'
      norm_num
  have hret : simulate_preference_regret 1 [1, 2] =
      some ([1, 2], [Real.exp (-(1 / 2)), Real.exp (-(2 / 2))]) := by
    have h := simulate_of_loop
      (regretLoop_map 1 one_ne_zero [1, 2] fun e he => (hpos e he).ne')
    simpa using h
  constructor
  · show (1 : ℝ) < 2
    norm_num
  · exact c3_strictly_decreasing 1 [1, 2] [1, 2]
      [Real.exp (-(1 / 2)), Real.exp (-(2 / 2))] hret hpos 0 1 (by simp)
      (by simp) (by simp) (by simp) (by show (1 : ℝ) < 2; norm_num)

/-- C4: on an all-positive sweep with nonzero δ the call returns the input
sequence itself together with a regret sequence of the same length, and
the i-th regret value is exactly the loop body's output on ε[i]. -/
theorem c4_output_aligned (delta : ℝ) (eps : List ℝ) (hd : delta ≠ 0)
    (hpos : ∀ e ∈ eps, 0 < e) :
    ∃ rs, simulate_preference_regret delta eps = some (eps, rs) ∧
      rs.length = eps.length ∧
      ∀ i (hi : i < eps.length) (hi' : i < rs.length),
        regretStep delta (eps.get ⟨i, hi⟩) = some (rs.get ⟨i, hi'⟩) := by
  have hloop := regretLoop_map delta hd eps fun e he => (hpos e he).ne'
  refine ⟨eps.map fun e => Real.exp (-(e / 2)), simulate_of_loop hloop,
    by simp, ?_⟩
  intro i hi hi'
  exact regretLoop_get delta eps _ hloop i hi hi'

/-- C4, witness: the theorem evaluated at δ = 1, ε-sweep [2]. -/
theorem c4_output_aligned_witness :
    (1 : ℝ) ≠ 0 ∧ (∀ e ∈ [(2 : ℝ)], 0 < e) ∧
      ∃ rs, simulate_preference_regret 1 [2] = some ([2], rs) ∧
        rs.length = [(2 : ℝ)].length ∧
        ∀ i (hi : i < [(2 : ℝ)].length) (hi' : i < rs.length),
          regretStep 1 ([(2 : ℝ)].get ⟨i, hi⟩) = some (rs.get ⟨i, hi'⟩) := by
  have hpos : ∀ e ∈ [(2 : ℝ)], 0 < e := by
    intro x hx
    rw [List.mem_singleton] at hx
    subst hx
    norm_num
  exact ⟨one_ne_zero, hpos, c4_output_aligned 1 [2] one_ne_zero hpos⟩

/-- C5: the script's default call, δ = 1.0 over np.linspace(0.1, 3, 20),
returns two sequences of length 20; the first regret value is within 1/1000
of 0.9512 and the last within 1/1000 of 0.2231. -/
theorem c5_default_call :
    ∃ es rs, simulate_preference_regret 1.0 defaultEpsilons = some (es, rs) ∧
      es.length = 20 ∧ rs.length = 20 ∧
      (∃ r0, rs.head? = some r0 ∧ |r0 - 0.9512| < 1 / 1000) ∧
      (∃ r19, rs.getLast? = some r19 ∧ |r19 - 0.2231| < 1 / 1000) := by
  have hpos := defaultEpsilons_pos
  have hloop := regretLoop_map 1.0 (by norm_num) defaultEpsilons
    fun e he => (hpos e he).ne'
  refine ⟨defaultEpsilons, defaultEpsilons.map fun e => Real.exp (-(e / 2)),
    simulate_of_loop hloop, ?_, ?_, ?_, ?_⟩
  · rw [defaultEpsilons, linspace]
    simp
  · rw [defaultEpsilons, linspace]
    simp
  · refine ⟨Real.exp (-(1 / 20)), ?_, ?_⟩
    · rw [List.head?_map, defaultEpsilons, linspace, List.head?_map,
        show (List.range 20).head? = some 0 from rfl]
      norm_num
    · obtain ⟨hb1, hb2⟩ := exp_neg_inv20_bounds
      rw [abs_lt]
      constructor <;> linarith
  · refine ⟨Real.exp (-(3 / 2)), ?_, ?_⟩
    · rw [List.getLast?_map, defaultEpsilons, linspace, List.getLast?_map,
        show (List.range 20).getLast? = some 19 by decide]
      norm_num
    · obtain ⟨hb1, hb2⟩ := exp_neg_threehalf_bounds
      rw [abs_lt]
      constructor <;> linarith

/-- C6: for positive δ and an all-positive sweep, every returned regret
value lies in (0, 1]. -/
theorem c6_regret_in_unit (delta : ℝ) (eps es rs : List ℝ) (hd : 0 < delta)
    (hpos : ∀ e ∈ eps, 0 < e)
    (hret : simulate_preference_regret delta eps = some (es, rs)) :
    ∀ r ∈ rs, 0 < r ∧ r ≤ 1 := by
  obtain ⟨-, hloop⟩ := simulate_eq_some hret
  rw [regretLoop_map delta hd.ne' eps fun e he => (hpos e he).ne'] at hloop
  have hrs := Option.some_inj.mp hloop
  intro r hr
  rw [← hrs] at hr
  obtain ⟨e, he, rfl⟩ := List.mem_map.mp hr
  refine ⟨Real.exp_pos _, ?_⟩
  have h0 : -(e / 2) ≤ 0 := by
    have := hpos e he
    linarith
  calc Real.exp (-(e / 2)) ≤ Real.exp 0 := Real.exp_le_exp.mpr h0
    _ = 1 := Real.exp_zero

/-- C6, witness: the theorem evaluated at δ = 1, ε-sweep [2], on the single
returned regret value. -/
theorem c6_regret_in_unit_witness :
    0 < Real.exp (-(2 / 2)) ∧ Real.exp (-(2 / 2)) ≤ 1 := by
  have hpos : ∀ e ∈ [(2 : ℝ)], 0 < e := by
    intro x hx
    rw [List.mem_singleton] at hx
    subst hx
    norm_num
  have hret : simulate_preference_regret 1 [2] =
      some ([2], [Real.exp (-(2 / 2))]) := by
    have h := simulate_of_loop
      (regretLoop_map 1 one_ne_zero [2] fun e he => (hpos e he).ne')
    simpa using h
  exact c6_regret_in_unit 1 [2] [2] [Real.exp (-(2 / 2))] one_pos hpos hret
    (Real.exp (-(2 / 2))) (List.mem_singleton.mpr rfl)

/-- C7 (code bug): the script renders a line chart with a title, grid lines
and y-label "Preference Regret", but its x-axis label is the mojibake
string "Privacy budget (Îµ)" — an encoding slip — and not the
intended "Privacy budget (ε)" the claim states. -/
theorem c7_plot_labels :
    ∃ pc, scriptPlot = some pc ∧
      pc.xlabel = "Privacy budget (Îµ)" ∧
      pc.xlabel ≠ "Privacy budget (ε)" ∧
      pc.ylabel = "Preference Regret" ∧
      pc.title = "Tradeoff: Privacy vs Preference Accuracy" ∧
      pc.grid = true := by
  have hpos := defaultEpsilons_pos
  have hloop := regretLoop_map 1.0 (by norm_num) defaultEpsilons
    fun e he => (hpos e he).ne'
  have hs : scriptPlot = some
      { xdata := defaultEpsilons
        ydata := defaultEpsilons.map fun e => Real.exp (-(e / 2))
        xlabel := "Privacy budget (Îµ)"
        ylabel := "Preference Regret"
        title := "Tradeoff: Privacy vs Preference Accuracy"
        grid := true } := by
    rw [scriptPlot, simulate_of_loop hloop, Option.map_some']
  exact ⟨_, hs, rfl, by decide, rfl, rfl, rfl⟩

/-- C8: the computation is pure and deterministic: a second call with equal
arguments returns the identical output, and the ε component of the output
is the input sequence unmodified. -/
theorem c8_pure_function (delta delta' : ℝ) (eps eps' : List ℝ)
    (out : List ℝ × List ℝ) (hd : delta = delta') (he : eps = eps')
    (hout : simulate_preference_regret delta eps = some out) :
    simulate_preference_regret delta' eps' = some out ∧ out.1 = eps := by
  subst hd
  subst he
  refine ⟨hout, ?_⟩
  obtain ⟨es, rs⟩ := out
  exact (simulate_eq_some hout).1

/-- C8, witness: the theorem evaluated on two identical calls at δ = 1,
ε-sweep [2]. -/
theorem c8_pure_function_witness :
    simulate_preference_regret 1 [2] = some ([2], [Real.exp (-(2 / 2))]) ∧
      (([2], [Real.exp (-(2 / 2))]) : List ℝ × List ℝ).1 = [2] := by
  have hpos : ∀ e ∈ [(2 : ℝ)], 0 < e := by
    intro x hx
    rw [List.mem_singleton] at hx
    subst hx
    norm_num
  have hout : simulate_preference_regret 1 [2] =
      some ([2], [Real.exp (-(2 / 2))]) := by
    have h := simulate_of_loop
      (regretLoop_map 1 one_ne_zero [2] fun e he => (hpos e he).ne')
    simpa using h
  exact c8_pure_function 1 1 [2] [2] ([2], [Real.exp (-(2 / 2))]) rfl rfl hout

/-- C9: for every nonzero δ, positive or negative, the call on an
all-positive sweep returns exactly what the call with δ = 1.0 returns. -/
theorem c9_delta_irrelevant (delta : ℝ) (eps : List ℝ) (hd : delta ≠ 0)
    (hpos : ∀ e ∈ eps, 0 < e) :
    simulate_preference_regret delta eps =
      simulate_preference_regret 1.0 eps := by
  have h1 := regretLoop_map delta hd eps fun e he => (hpos e he).ne'
  have h2 := regretLoop_map 1.0 (by norm_num) eps fun e he => (hpos e he).ne'
  rw [simulate_preference_regret, simulate_preference_regret, h1, h2]

/-- C9, witness: the theorem evaluated at the negative δ = -2, sweep [3]. -/
theorem c9_delta_irrelevant_witness :
    (-2 : ℝ) ≠ 0 ∧
      simulate_preference_regret (-2) [3] =
        simulate_preference_regret 1.0 [3] := by
  have hpos : ∀ e ∈ [(3 : ℝ)], 0 < e := by
    intro x hx
    rw [List.mem_singleton] at hx
    subst hx
    norm_num
  exact ⟨by norm_num, c9_delta_irrelevant (-2) [3] (by norm_num) hpos⟩

/-- C10: at δ = 0 and any nonzero ε in the sweep, the first step returns
b = 0, the second step divides by zero, and the whole call faults instead
of producing a probability. -/
theorem c10_delta_zero_faults (e : ℝ) (eps : List ℝ) (he : e ≠ 0)
    (hmem : e ∈ eps) :
    div? 0 e = some 0 ∧ regretStep 0 e = none ∧
      simulate_preference_regret 0 eps = none := by
  refine ⟨?_, regretStep_delta_zero e, ?_⟩
  · rw [div?_eq_some he, zero_div]
  · rw [simulate_preference_regret,
      regretLoop_delta_zero eps (List.ne_nil_of_mem hmem)]
    rfl

/-- C10, witness: the theorem evaluated at ε = 1 in the sweep [1]. -/
theorem c10_delta_zero_faults_witness :
    (1 : ℝ) ≠ 0 ∧ (1 : ℝ) ∈ [(1 : ℝ)] ∧ div? 0 1 = some 0 ∧
      regretStep 0 1 = none ∧ simulate_preference_regret 0 [1] = none := by
  have h := c10_delta_zero_faults 1 [1] one_ne_zero (List.mem_singleton.mpr rfl)
  exact ⟨one_ne_zero, List.mem_singleton.mpr rfl, h.1, h.2.1, h.2.2⟩

end

end GPref
